import Mathlib

/-!
Shallow embedding of MuGo's `load_data_sets.py`: the chunked binary dataset
format (header encoding, three bit-packing strategies, three compression
wrappers), the streaming chunk splitter, the train/test partition and the
`DataSet` batching logic.

Modelling conventions:
* a Python iterator is a list of events (`NextResult`): a produced value, a
  raised `StopIteration`, or any other raised exception;
* bytes are natural numbers below 256, byte strings are `List Nat`;
* float32 feature values are modelled as `ℚ`, int16 label values as `ℤ`;
* the external libraries (gzip, snappy, numpy's dtype byte serialization)
  appear as an explicit codec record `ExtCodecs`; theorems assume exactly
  their documented contracts (decompress ∘ compress = id, decode ∘ encode = id
  on representable values);
* Python-level failures (KeyError, struct.error, AssertionError,
  UnboundLocalError, ValueError, a generic producer exception) are an
  explicit error type `PyErr` via `Except`.
-/

set_option autoImplicit false

universe u

/-- Outcome of one `next()` call on a Python iterator: a value, a
`StopIteration`, or some other exception raised by the producer. -/
inductive NextResult (α : Type u) where
  | val (a : α)
  | stop
  | err
  deriving DecidableEq, Repr

/-- A pure (never-failing) iterator over the elements of `xs`. -/
def ofList {α : Type u} (xs : List α) : List (NextResult α) :=
  xs.map NextResult.val

/-- Python-level exceptions surfaced by the embedded code. -/
inductive PyErr where
  | keyError        -- dict lookup with unknown key
  | structError     -- struct.pack / struct.unpack failure
  | truncation      -- the `assert len(f.read()) == 0` corruption detector
  | unboundLocal    -- use of a variable no branch assigned
  | valueError      -- numpy fromstring / reshape size mismatch
  | producerError   -- an exception raised by the position producer
  deriving DecidableEq, Repr

/-- Number of data points per chunk on disk (`CHUNK_SIZE = 4096`). -/
def CHUNK_SIZE : Nat := 4096

/-- `struct.calcsize("iii?") = 13`. -/
def CHUNK_HEADER_SIZE : Nat := 13

/-- `take_n(n, iterator)` from `load_data_sets.py`: collect up to `n`
elements; `StopIteration` ends collection early, and because the `finally`
block executes `return result`, ANY exception from the producer is swallowed
and the partially collected list is returned. Returns the collected list and
the remaining stream. -/
def take_n {α : Type u} : Nat → List (NextResult α) → List α × List (NextResult α)
  | 0, s => ([], s)
  | _ + 1, [] => ([], [])
  | n + 1, NextResult.val a :: s =>
      let r := take_n n s
      (a :: r.1, r.2)
  | _ + 1, NextResult.stop :: s => ([], s)
  | _ + 1, NextResult.err :: s => ([], s)

theorem take_n_snd_length_le {α : Type u} :
    ∀ (n : Nat) (s : List (NextResult α)), (take_n n s).2.length ≤ s.length := by
  intro n
  induction n with
  | zero => intro s; simp [take_n]
  | succ n ih =>
    intro s
    cases s with
    | nil => simp [take_n]
    | cons e s =>
      cases e with
      | val a =>
        simp only [take_n]
        exact Nat.le_trans (ih s) (Nat.le_succ _)
      | stop => simp [take_n]
      | err => simp [take_n]

theorem take_n_fst_ne_nil_snd_lt {α : Type u} :
    ∀ (n : Nat) (s : List (NextResult α)),
      (take_n n s).1 ≠ [] → (take_n n s).2.length < s.length := by
  intro n s h
  match n, s with
  | 0, s => simp [take_n] at h
  | _ + 1, [] => simp [take_n] at h
  | n + 1, NextResult.val a :: s =>
    simp only [take_n, List.length_cons]
    exact Nat.lt_succ_of_le (take_n_snd_length_le n s)
  | _ + 1, NextResult.stop :: s => simp [take_n] at h
  | _ + 1, NextResult.err :: s => simp [take_n] at h

/-- `iter_chunks(chunk_size, iterator)`: repeatedly take a chunk; a would-be
empty chunk (`if next_chunk:` falsy) ends the generator without being
emitted. Modelled as the full list of emitted chunks. -/
def iter_chunks {α : Type u} (chunk_size : Nat) (s : List (NextResult α)) :
    List (List α) :=
  if h : ((take_n chunk_size s).1).isEmpty then []
  else (take_n chunk_size s).1 :: iter_chunks chunk_size (take_n chunk_size s).2
termination_by s.length
decreasing_by
  exact take_n_fst_ne_nil_snd_lt _ _ (by simpa [List.isEmpty_iff] using h)

/-- `list(iterator)`: materialize the whole stream; an exception from the
producer propagates (unlike `take_n`, there is no swallowing here). -/
def listAll {α : Type u} : List (NextResult α) → Except PyErr (List α)
  | [] => Except.ok []
  | NextResult.val a :: s => (listAll s).map (a :: ·)
  | NextResult.stop :: _ => Except.ok []
  | NextResult.err :: _ => Except.error PyErr.producerError

/-- `split_test_training(positions_w_context, est_num_positions)` from
`load_data_sets.py`. -/
def split_test_training {α : Type u} (positions_w_context : List (NextResult α))
    (est_num_positions : Nat) : Except PyErr (List α × List (List α)) :=
  let desired_test_size := 10 ^ 5
  if est_num_positions < 2 * desired_test_size then
    match listAll positions_w_context with
    | Except.error e => Except.error e
    | Except.ok xs =>
        let test_size := xs.length / 3
        Except.ok (xs.take test_size, [xs.drop test_size])
  else
    let tc := take_n desired_test_size positions_w_context
    Except.ok (tc.1, iter_chunks CHUNK_SIZE tc.2)

/-! ### Packing strategies (`nopack`, `halfpack`, `fullpack`) -/

/-- `nopack`: `nparray.tostring()` — raw native byte layout, `enc` being the
per-element dtype serialization (4 bytes for float32, 2 for int16). -/
def nopack {α : Type u} (enc : α → List Nat) (xs : List α) : List Nat :=
  xs.flatMap enc

/-- `halfpack`: `(nparray == 1).tostring()` — one byte per element, 1 exactly
when the element equals 1. -/
def halfpack {α : Type u} [One α] [DecidableEq α] (xs : List α) : List Nat :=
  xs.map (fun x => if x = 1 then 1 else 0)

/-- The byte formed from eight bits, most significant bit first
(numpy `packbits` default bit order). -/
def byteVal (b0 b1 b2 b3 b4 b5 b6 b7 : Bool) : Nat :=
  128 * cond b0 1 0 + 64 * cond b1 1 0 + 32 * cond b2 1 0 + 16 * cond b3 1 0 +
    8 * cond b4 1 0 + 4 * cond b5 1 0 + 2 * cond b6 1 0 + cond b7 1 0

/-- numpy `packbits`: group bits 8 per byte MSB-first, the final partial
group zero-padded at the end. -/
def packbits : List Bool → List Nat
  | [] => []
  | [b0] => [byteVal b0 false false false false false false false]
  | [b0, b1] => [byteVal b0 b1 false false false false false false]
  | [b0, b1, b2] => [byteVal b0 b1 b2 false false false false false]
  | [b0, b1, b2, b3] => [byteVal b0 b1 b2 b3 false false false false]
  | [b0, b1, b2, b3, b4] => [byteVal b0 b1 b2 b3 b4 false false false]
  | [b0, b1, b2, b3, b4, b5] => [byteVal b0 b1 b2 b3 b4 b5 false false]
  | [b0, b1, b2, b3, b4, b5, b6] => [byteVal b0 b1 b2 b3 b4 b5 b6 false]
  | b0 :: b1 :: b2 :: b3 :: b4 :: b5 :: b6 :: b7 :: rest =>
      byteVal b0 b1 b2 b3 b4 b5 b6 b7 :: packbits rest

/-- `fullpack`: `np.packbits(nparray == 1).tostring()`. -/
def fullpack {α : Type u} [One α] [DecidableEq α] (xs : List α) : List Nat :=
  packbits (xs.map (fun x => decide (x = 1)))

/-- The eight bits of a byte, most significant first (numpy `unpackbits`). -/
def bitsOfByte (b : Nat) : List Nat :=
  [b / 128 % 2, b / 64 % 2, b / 32 % 2, b / 16 % 2,
   b / 8 % 2, b / 4 % 2, b / 2 % 2, b % 2]

/-- numpy `unpackbits`. -/
def unpackbits (bytes : List Nat) : List Nat :=
  bytes.flatMap bitsOfByte

/-! ### Header encoding (`struct.pack("iii?", ...)`) -/

/-- Little-endian 4-byte encoding of a signed-32-bit-representable natural
(`struct.pack("i", n)` on a little-endian host). -/
def encI32 (n : Nat) : List Nat :=
  [n % 256, n / 256 % 256, n / 65536 % 256, n / 16777216 % 256]

/-- Little-endian signed 32-bit decoding (`struct.unpack("i", ...)`). -/
def decI32 (l : List Nat) : Int :=
  let usign := l.getD 0 0 + 256 * l.getD 1 0 + 65536 * l.getD 2 0 +
    16777216 * l.getD 3 0
  if usign < 2 ^ 31 then (usign : Int) else (usign : Int) - 2 ^ 32

/-- `struct.pack(CHUNK_HEADER_FORMAT, data_size, board_size, input_planes,
is_test)` — 13 bytes, no padding. -/
def encHeader (data_size board_size input_planes : Nat) (is_test : Bool) :
    List Nat :=
  encI32 data_size ++ encI32 board_size ++ encI32 input_planes ++
    [cond is_test 1 0]

/-- `struct.unpack(CHUNK_HEADER_FORMAT, header_bytes)`; the `?` field is true
exactly when its byte is nonzero. -/
def decHeader (h : List Nat) : Int × Int × Int × Bool :=
  (decI32 (h.take 4), decI32 ((h.drop 4).take 4), decI32 ((h.drop 8).take 4),
    h.getD 12 0 != 0)

/-! ### File-object primitives -/

/-- Python `f.read(n)` on a byte buffer: a negative argument reads the whole
rest; otherwise exactly `n` bytes are consumed (fewer if the buffer is
shorter). Returns (bytes read, rest). -/
def pyRead (n : Int) (bs : List Nat) : List Nat × List Nat :=
  if n < 0 then (bs, [])
  else (bs.take n.toNat, bs.drop n.toNat)

/-- Python slice `xs[:n]`, including the negative-index convention. -/
def pySliceTo {α : Type u} (n : Int) (xs : List α) : List α :=
  if n < 0 then xs.take (xs.length - (-n).toNat) else xs.take n.toNat

/-- numpy `reshape(nrows, rowlen)` of a flat buffer into rows (used after the
element count has been checked to match). -/
def reshapeRows {α : Type u} : Nat → Nat → List α → List (List α)
  | 0, _, _ => []
  | n + 1, k, flat => flat.take k :: reshapeRows n k (flat.drop k)

/-- `np.fromstring(bytes, dtype=float32)`: decode consecutive 4-byte groups. -/
def fromstring4 (dec : List Nat → ℚ) : List Nat → List ℚ
  | b0 :: b1 :: b2 :: b3 :: rest => dec [b0, b1, b2, b3] :: fromstring4 dec rest
  | _ => []

/-- `np.fromstring(bytes, dtype=int16)`: decode consecutive 2-byte groups. -/
def fromstring2 (dec : List Nat → ℤ) : List Nat → List ℤ
  | b0 :: b1 :: rest => dec [b0, b1] :: fromstring2 dec rest
  | _ => []

/-- The external byte-level codecs the source delegates to: the `gzip` and
`snappy` libraries (compression level is `gzip`'s first argument) and numpy's
float32/int16 dtype serialization used by `tostring`/`fromstring`. Their
documented contracts (decompression inverts compression; decoding inverts
encoding on representable values; fixed element widths) enter the theorems as
hypotheses. -/
structure ExtCodecs where
  gzipC : Nat → List Nat → List Nat
  gzipD : List Nat → List Nat
  snappyC : List Nat → List Nat
  snappyD : List Nat → List Nat
  f32enc : ℚ → List Nat
  f32dec : List Nat → ℚ
  i16enc : ℤ → List Nat
  i16dec : List Nat → ℤ

/-! ### DataSet -/

/-- In-memory dataset: `pos_features` is the `[N, board, board, planes]`
float32 array as `N` flattened rows, `next_moves` the `[N, board²]` int16
one-hot array as `N` rows. `data_size` is `pos_features.shape[0]`, i.e. the
number of rows. -/
structure DataSet where
  pos_features : List (List ℚ)
  next_moves : List (List ℤ)
  results : List ℤ
  is_test : Bool
  board_size : Nat
  input_planes : Nat
  index_within_epoch : Nat
  deriving DecidableEq, Repr

/-- `pos_features.shape[0]`. -/
def DataSet.data_size (d : DataSet) : Nat :=
  d.pos_features.length

/-- Shape well-formedness captured by the numpy array shapes: as many label
rows as feature rows, each feature row of length `board²·planes`, each label
row of length `board²`. -/
def DataSet.WF (d : DataSet) : Prop :=
  d.next_moves.length = d.data_size ∧
    (∀ r ∈ d.pos_features, r.length = d.board_size * d.board_size * d.input_planes) ∧
    (∀ r ∈ d.next_moves, r.length = d.board_size * d.board_size)

instance (d : DataSet) : Decidable d.WF := by
  unfold DataSet.WF; infer_instance

/-- numpy fancy indexing `arr[perm]`: row `i` of the result is row `perm[i]`
of the input. -/
def applyPerm {α : Type u} [Inhabited α] (perm : List Nat) (xs : List α) :
    List α :=
  perm.map (fun i => xs.getD i default)

/-- `DataSet.get_batch(batch_size)`: asserts `batch_size < data_size`; when
the cursor plus the batch would run past the end, permutes both arrays by a
freshly drawn permutation (`perm`, the randomness made explicit) and resets
the cursor, then returns the next contiguous rows and advances the cursor. -/
def DataSet.get_batch (d : DataSet) (batch_size : Nat) (perm : List Nat) :
    Option ((List (List ℚ) × List (List ℤ)) × DataSet) :=
  if batch_size < d.data_size then
    let d1 :=
      if d.data_size < d.index_within_epoch + batch_size then
        { d with
          pos_features := applyPerm perm d.pos_features,
          next_moves := applyPerm perm d.next_moves,
          index_within_epoch := 0 }
      else d
    let start := d1.index_within_epoch
    some (((d1.pos_features.drop start).take batch_size,
           (d1.next_moves.drop start).take batch_size),
          { d1 with index_within_epoch := start + batch_size })
  else none

/-- `DataSet.write(filename, compression, packing)`: pack the header
(`struct.pack` fails if a field exceeds signed-32-bit range), look the packing
strategy up in a dict (KeyError on an unknown key), pack both arrays, then
write through the selected compression wrapper. The compression dispatch has
no `else` branch: an unrecognized compression string falls through and the
call returns having written nothing (`Option.none` file). -/
def DataSet.write (ext : ExtCodecs) (d : DataSet)
    (compression packing : String) : Except PyErr (Option (List Nat)) :=
  if 2 ^ 31 ≤ d.data_size ∨ 2 ^ 31 ≤ d.board_size ∨ 2 ^ 31 ≤ d.input_planes then
    Except.error PyErr.structError
  else
    let header_bytes :=
      encHeader d.data_size d.board_size d.input_planes d.is_test
    if packing = "none" ∨ packing = "half" ∨ packing = "full" then
      let position_bytes :=
        if packing = "none" then nopack ext.f32enc d.pos_features.flatten
        else if packing = "half" then halfpack d.pos_features.flatten
        else fullpack d.pos_features.flatten
      let next_move_bytes :=
        if packing = "none" then nopack ext.i16enc d.next_moves.flatten
        else if packing = "half" then halfpack d.next_moves.flatten
        else fullpack d.next_moves.flatten
      let plain := header_bytes ++ position_bytes ++ next_move_bytes
      if compression = "none" then Except.ok (some plain)
      else if compression = "gzip6" then Except.ok (some (ext.gzipC 6 plain))
      else if compression = "gzip9" then Except.ok (some (ext.gzipC 9 plain))
      else if compression = "snappy" then Except.ok (some (ext.snappyC plain))
      else Except.ok none
    else Except.error PyErr.keyError

/-- The body of `DataSet.read` after the compression layer produced the plain
byte stream: parse the 13-byte header, read the packed payloads, assert no
trailing bytes remain, reshape. An unknown packing string leaves
`flat_position` unassigned, so after the trailing-bytes assertion the read
dies with UnboundLocalError. -/
def readPlain (ext : ExtCodecs) (plain : List Nat) (packing : String) :
    Except PyErr DataSet :=
  if plain.length < CHUNK_HEADER_SIZE then Except.error PyErr.structError
  else
    let hdr := decHeader (plain.take CHUNK_HEADER_SIZE)
    let data_size := hdr.1
    let board_size := hdr.2.1
    let input_planes := hdr.2.2.1
    let is_test := hdr.2.2.2
    let body := plain.drop CHUNK_HEADER_SIZE
    let position_dims : Int := data_size * board_size * board_size * input_planes
    let next_move_dims : Int := data_size * board_size * board_size
    let decoded :
        Except PyErr ((List ℚ × List ℤ) × List Nat) :=
      if packing = "none" then
        let p := pyRead (position_dims * 4) body
        if p.1.length % 4 ≠ 0 then Except.error PyErr.valueError
        else
          let q := pyRead (next_move_dims * 2) p.2
          if q.1.length % 2 ≠ 0 then Except.error PyErr.valueError
          else Except.ok ((fromstring4 ext.f32dec p.1, fromstring2 ext.i16dec q.1), q.2)
      else if packing = "half" then
        let p := pyRead position_dims body
        let q := pyRead next_move_dims p.2
        Except.ok ((p.1.map (fun b : Nat => (b : ℚ)), q.1.map (fun b : Nat => (b : ℤ))), q.2)
      else if packing = "full" then
        let p := pyRead ((position_dims + 7).fdiv 8) body
        let q := pyRead ((next_move_dims + 7).fdiv 8) p.2
        Except.ok
          (((pySliceTo position_dims (unpackbits p.1)).map (fun b : Nat => (b : ℚ)),
            (pySliceTo next_move_dims (unpackbits q.1)).map (fun b : Nat => (b : ℤ))),
           q.2)
      else
        if body ≠ [] then Except.error PyErr.truncation
        else Except.error PyErr.unboundLocal
    match decoded with
    | Except.error e => Except.error e
    | Except.ok ((flat_position, flat_nextmoves), rest) =>
      if rest ≠ [] then Except.error PyErr.truncation
      else if data_size < 0 ∨ board_size < 0 ∨ input_planes < 0 then
        Except.error PyErr.valueError
      else if (flat_position.length : Int) ≠ position_dims then
        Except.error PyErr.valueError
      else if (flat_nextmoves.length : Int) ≠ next_move_dims then
        Except.error PyErr.valueError
      else
        Except.ok
          { pos_features :=
              reshapeRows data_size.toNat
                (board_size.toNat * board_size.toNat * input_planes.toNat)
                flat_position,
            next_moves :=
              reshapeRows data_size.toNat (board_size.toNat * board_size.toNat)
                flat_nextmoves,
            results := [],
            is_test := is_test,
            board_size := board_size.toNat,
            input_planes := input_planes.toNat,
            index_within_epoch := 0 }

/-- `DataSet.read(filename, compression, packing)`: the compression dispatch
binds the file object `f`; with an unrecognized compression string no branch
runs and the first use of `f` raises UnboundLocalError. -/
def DataSet.read (ext : ExtCodecs) (file : List Nat)
    (compression packing : String) : Except PyErr DataSet :=
  if compression = "none" then readPlain ext file packing
  else if compression = "gzip6" ∨ compression = "gzip9" then
    readPlain ext (ext.gzipD file) packing
  else if compression = "snappy" then readPlain ext (ext.snappyD file) packing
  else Except.error PyErr.unboundLocal

/-! ### Stream lemmas -/

theorem take_n_ofList {α : Type u} :
    ∀ (n : Nat) (xs : List α),
      take_n n (ofList xs) = (xs.take n, ofList (xs.drop n)) := by
  intro n
  induction n with
  | zero => intro xs; simp [take_n]
  | succ n ih =>
    intro xs
    cases xs with
    | nil => simp [take_n, ofList]
    | cons a xs =>
      have hx := ih xs
      simp only [ofList] at hx ⊢
      simp [take_n, hx]

theorem listAll_ofList {α : Type u} (xs : List α) :
    listAll (ofList xs) = Except.ok xs := by
  induction xs with
  | nil => simp [listAll, ofList]
  | cons a xs ih =>
    have hx := ih
    simp only [ofList] at hx ⊢
    simp [listAll, hx]
    rfl

theorem ofList_nil_iff {α : Type u} (xs : List α) :
    ofList xs = [] ↔ xs = [] := by
  cases xs <;> simp [ofList]

theorem iter_chunks_ofList_nil {α : Type u} (c : Nat) :
    iter_chunks c (ofList ([] : List α)) = [] := by
  rw [iter_chunks]
  simp [take_n_ofList]

theorem iter_chunks_ofList_cons {α : Type u} (c : Nat) (hc : 0 < c)
    (ys : List α) (hy : ys ≠ []) :
    iter_chunks c (ofList ys) = ys.take c :: iter_chunks c (ofList (ys.drop c)) := by
  rw [iter_chunks]
  rw [take_n_ofList]
  simp only
  have : ¬ (ys.take c).isEmpty := by
    cases ys with
    | nil => exact absurd rfl hy
    | cons a ys =>
      cases c with
      | zero => exact absurd hc (by simp)
      | succ c => simp [List.take]
  simp [this]

theorem iter_chunks_ofList_props {α : Type u} (c : Nat) (hc : 0 < c) :
    ∀ (fuel : Nat) (ys : List α), ys.length ≤ fuel →
      (iter_chunks c (ofList ys)).flatten = ys ∧
        (∀ ch ∈ iter_chunks c (ofList ys), ch ≠ [] ∧ ch.length ≤ c) ∧
        (∀ ch ∈ (iter_chunks c (ofList ys)).dropLast, ch.length = c) := by
  intro fuel
  induction fuel with
  | zero =>
    intro ys hlen
    have : ys = [] := List.eq_nil_of_length_eq_zero (Nat.le_zero.mp hlen)
    subst this
    simp [iter_chunks_ofList_nil]
  | succ fuel ih =>
    intro ys hlen
    by_cases hy : ys = []
    · subst hy; simp [iter_chunks_ofList_nil]
    · rw [iter_chunks_ofList_cons c hc ys hy]
      have hpos : 0 < ys.length := List.length_pos.mpr hy
      have hdrop : (ys.drop c).length ≤ fuel := by
        rw [List.length_drop]
        omega
      obtain ⟨hflat, hmem, hlast⟩ := ih (ys.drop c) hdrop
      refine ⟨?_, ?_, ?_⟩
      · simp [hflat]
      · intro ch hch
        rcases List.mem_cons.mp hch with h | h
        · subst h
          constructor
          · simp [← List.length_pos]
            omega
          · simp
        · exact hmem ch h
      · intro ch hch
        rcases List.eq_nil_or_concat (iter_chunks c (ofList (ys.drop c))) with
          hnil | ⟨l, b, hcat⟩
        · rw [hnil] at hch
          simp at hch
        · have htail_ne : iter_chunks c (ofList (ys.drop c)) ≠ [] := by
            rw [hcat]; simp
          rw [List.dropLast_cons_of_ne_nil htail_ne] at hch
          rcases List.mem_cons.mp hch with h | h
          · subst h
            have hdropne : ys.drop c ≠ [] := by
              intro hdn
              rw [hdn, iter_chunks_ofList_nil] at htail_ne
              exact htail_ne rfl
            have : c < ys.length := by
              by_contra hle
              exact hdropne (List.drop_eq_nil_of_le (Nat.le_of_not_lt hle))
            simp [List.length_take]
            omega
          · exact hlast ch h

/-- C2 helper: the claim's desired test size. -/
theorem split_test_training_large {α : Type u} (xs : List α) (est : Nat)
    (hest : 2 * 10 ^ 5 ≤ est) :
    split_test_training (ofList xs) est =
      Except.ok (xs.take (10 ^ 5),
        iter_chunks CHUNK_SIZE (ofList (xs.drop (10 ^ 5)))) := by
  unfold split_test_training
  rw [if_neg (by omega)]
  rw [take_n_ofList]

/-- C2: with a large estimated count, `split_test_training` takes exactly the
first 10^5 stream elements as the test set and lazily groups the remainder
into consecutive chunks of exactly `CHUNK_SIZE = 4096`, except a possibly
smaller (but never empty) final chunk; test set followed by the concatenated
chunks reproduces the stream with nothing duplicated or dropped. -/
theorem split_test_training_streaming_partition {α : Type u} (xs : List α)
    (est : Nat) (hest : 2 * 10 ^ 5 ≤ est) :
    ∃ test chunks,
      split_test_training (ofList xs) est = Except.ok (test, chunks) ∧
        test = xs.take (10 ^ 5) ∧
        test ++ chunks.flatten = xs ∧
        (∀ ch ∈ chunks, ch ≠ []) ∧
        (∀ ch ∈ chunks, ch.length ≤ CHUNK_SIZE) ∧
        (∀ ch ∈ chunks.dropLast, ch.length = CHUNK_SIZE) := by
  refine ⟨xs.take (10 ^ 5), iter_chunks CHUNK_SIZE (ofList (xs.drop (10 ^ 5))),
    split_test_training_large xs est hest, rfl, ?_, ?_, ?_, ?_⟩
  · obtain ⟨hflat, _, _⟩ :=
      iter_chunks_ofList_props CHUNK_SIZE (by norm_num [CHUNK_SIZE])
        (xs.drop (10 ^ 5)).length (xs.drop (10 ^ 5)) (Nat.le_refl _)
    rw [hflat, List.take_append_drop]
  · intro ch hch
    obtain ⟨_, hmem, _⟩ :=
      iter_chunks_ofList_props CHUNK_SIZE (by norm_num [CHUNK_SIZE])
        (xs.drop (10 ^ 5)).length (xs.drop (10 ^ 5)) (Nat.le_refl _)
    exact (hmem ch hch).1
  · intro ch hch
    obtain ⟨_, hmem, _⟩ :=
      iter_chunks_ofList_props CHUNK_SIZE (by norm_num [CHUNK_SIZE])
        (xs.drop (10 ^ 5)).length (xs.drop (10 ^ 5)) (Nat.le_refl _)
    exact (hmem ch hch).2
  · intro ch hch
    obtain ⟨_, _, hlast⟩ :=
      iter_chunks_ofList_props CHUNK_SIZE (by norm_num [CHUNK_SIZE])
        (xs.drop (10 ^ 5)).length (xs.drop (10 ^ 5)) (Nat.le_refl _)
    exact hlast ch hch

theorem split_streaming_partition_witness :
    2 * 10 ^ 5 ≤ 200000 ∧
      ∃ test chunks,
        split_test_training (ofList [0, 1, 2]) 200000 = Except.ok (test, chunks) ∧
          test = [0, 1, 2].take (10 ^ 5) ∧
          test ++ chunks.flatten = [0, 1, 2] ∧
          (∀ ch ∈ chunks, ch ≠ []) ∧
          (∀ ch ∈ chunks, ch.length ≤ CHUNK_SIZE) ∧
          (∀ ch ∈ chunks.dropLast, ch.length = CHUNK_SIZE) :=
  ⟨by norm_num,
    split_test_training_streaming_partition [0, 1, 2] 200000 (by norm_num)⟩

/-- C3: with a small estimated count the whole stream is materialized and
split by position — the first `length / 3` elements are the test set and the
single training group holds the rest, in original order. -/
theorem split_test_training_small_branch {α : Type u} (xs : List α) (est : Nat)
    (hest : est < 2 * 10 ^ 5) :
    split_test_training (ofList xs) est =
      Except.ok (xs.take (xs.length / 3), [xs.drop (xs.length / 3)]) ∧
      (xs.take (xs.length / 3)).length = xs.length / 3 ∧
      (xs.drop (xs.length / 3)).length = xs.length - xs.length / 3 := by
  refine ⟨?_, ?_, ?_⟩
  · unfold split_test_training
    rw [if_pos (by omega), listAll_ofList]
  · simp [List.length_take]
    omega
  · simp [List.length_drop]

theorem split_small_branch_witness :
    (300 : Nat) < 2 * 10 ^ 5 ∧
      split_test_training (ofList (List.range 300)) 300 =
        Except.ok ((List.range 300).take 100, [(List.range 300).drop 100]) ∧
      ((List.range 300).take 100).length = 100 ∧
      ((List.range 300).drop 100).length = 200 := by
  have h := split_test_training_small_branch (List.range 300) 300 (by norm_num)
  simp only [List.length_range] at h
  exact ⟨by norm_num, by simpa using h.1, by simpa using h.2.1, by simpa using h.2.2⟩

/-- C10: `take_n` returns the values preceding the first `StopIteration` or
producer exception among the first `n` events, never more than `n` elements,
and never propagates any exception — an abnormal event just truncates the
result (the `finally: return result`). -/
theorem take_n_swallows_exceptions {α : Type u} (n : Nat)
    (s : List (NextResult α)) :
    (s.take n).takeWhile
        (fun e => match e with | NextResult.val _ => true | _ => false) =
      (take_n n s).1.map NextResult.val ∧
      (take_n n s).1.length ≤ n := by
  induction s generalizing n with
  | nil => cases n <;> simp [take_n]
  | cons e s ih =>
    cases n with
    | zero => simp [take_n]
    | succ n =>
      cases e with
      | val a =>
        obtain ⟨h1, h2⟩ := ih n
        simp [take_n, List.takeWhile, h1]
        omega
      | stop => simp [take_n, List.takeWhile]
      | err => simp [take_n, List.takeWhile]

/-- C6: `get_batch` asserts `batch_size < data_size` strictly; a request of
`data_size` rows (or more) fails before returning anything. -/
theorem get_batch_rejects_full_size (d : DataSet) (batch_size : Nat)
    (perm : List Nat) (h : d.data_size ≤ batch_size) :
    d.get_batch batch_size perm = none := by
  unfold DataSet.get_batch
  rw [if_neg (by omega)]

/-- C5: one `get_batch` call under the strict precondition. At an epoch
boundary (cursor + batch would pass the end) one fresh permutation is applied
identically to features and labels, the cursor resets to 0 and the batch is
the first `batch_size` rows of the shuffled arrays; in either case the batch
is a contiguous block ending at the new cursor, the new cursor never exceeds
`data_size` (so cumulative rows between two shuffles never exceed it), and
row pairing survives the shuffle. -/
theorem get_batch_epoch_boundary (d : DataSet) (batch_size : Nat)
    (perm : List Nat)
    (hwf : d.next_moves.length = d.data_size)
    (hb : batch_size < d.data_size)
    (hidx : d.index_within_epoch ≤ d.data_size)
    (hpl : perm.length = d.data_size)
    (hpv : ∀ j ∈ perm, j < d.data_size) :
    ∃ A B d', d.get_batch batch_size perm = some ((A, B), d') ∧
      d'.data_size = d.data_size ∧
      d'.next_moves.length = d'.data_size ∧
      d'.index_within_epoch ≤ d'.data_size ∧
      batch_size ≤ d'.index_within_epoch ∧
      A = (d'.pos_features.drop (d'.index_within_epoch - batch_size)).take
        batch_size ∧
      B = (d'.next_moves.drop (d'.index_within_epoch - batch_size)).take
        batch_size ∧
      (d.data_size < d.index_within_epoch + batch_size →
        d'.pos_features = applyPerm perm d.pos_features ∧
        d'.next_moves = applyPerm perm d.next_moves ∧
        d'.index_within_epoch = batch_size ∧
        A = (applyPerm perm d.pos_features).take batch_size ∧
        B = (applyPerm perm d.next_moves).take batch_size ∧
        (∀ i, i < batch_size →
          A[i]? = d.pos_features[perm.getD i 0]? ∧
          B[i]? = d.next_moves[perm.getD i 0]?)) ∧
      (d.index_within_epoch + batch_size ≤ d.data_size →
        d'.pos_features = d.pos_features ∧
        d'.next_moves = d.next_moves ∧
        d'.index_within_epoch = d.index_within_epoch + batch_size) := by
  unfold DataSet.get_batch
  simp only [DataSet.data_size] at hwf hb hidx hpl hpv ⊢
  rw [if_pos hb]
  by_cases hsh : d.pos_features.length < d.index_within_epoch + batch_size
  · rw [if_pos hsh]
    simp only
    refine ⟨_, _, _, rfl, ?_, ?_, ?_, ?_, ?_, ?_, ?_, ?_⟩
    · simp [DataSet.data_size, applyPerm, hpl]
    · simp [DataSet.data_size, applyPerm, hpl, hwf]
    · simp only [DataSet.data_size, applyPerm, List.length_map]
      omega
    · simp
    · simp
    · simp
    · intro _
      refine ⟨rfl, rfl, by simp, by simp, by simp, ?_⟩
      intro i hi
      have hip : i < perm.length := by omega
      have hmem : perm.getD i 0 ∈ perm := by
        rw [List.getD_eq_getElem perm 0 hip]
        exact List.getElem_mem hip
      have hjN : perm.getD i 0 < d.pos_features.length := hpv _ hmem
      have hjM : perm.getD i 0 < d.next_moves.length := by
        rw [hwf]; exact hpv _ hmem
      constructor
      · rw [List.getElem?_take_of_lt hi]
        simp only [Nat.zero_add, List.drop_zero]
        simp only [applyPerm, List.getElem?_map]
        rw [List.getElem?_eq_getElem hip]
        rw [List.getD_eq_getElem perm 0 hip] at hjN ⊢
        rw [List.getElem?_eq_getElem hjN]
        exact congrArg some (List.getD_eq_getElem _ _ hjN)
      · rw [List.getElem?_take_of_lt hi]
        simp only [Nat.zero_add, List.drop_zero]
        simp only [applyPerm, List.getElem?_map]
        rw [List.getElem?_eq_getElem hip]
        rw [List.getD_eq_getElem perm 0 hip] at hjM ⊢
        rw [List.getElem?_eq_getElem hjM]
        exact congrArg some (List.getD_eq_getElem _ _ hjM)
    · intro hle
      omega
  · rw [if_neg hsh]
    refine ⟨_, _, _, rfl, rfl, hwf, ?_,
      by show batch_size ≤ d.index_within_epoch + batch_size; omega, ?_, ?_, ?_, ?_⟩
    · show d.index_within_epoch + batch_size ≤ d.pos_features.length
      omega
    · simp
    · simp
    · intro h; omega
    · intro _; exact ⟨rfl, rfl, rfl⟩

/-! ### Concrete instances used by the witnesses -/

/-- A concrete codec record: prefix-marker "compression" and first-byte
element serializations, enough to satisfy the contracts on the concrete data
below. -/
def extW : ExtCodecs :=
  { gzipC := fun lvl x => lvl :: x,
    gzipD := fun x => x.drop 1,
    snappyC := fun x => 200 :: x,
    snappyD := fun x => x.drop 1,
    f32enc := fun q => [q.num.toNat % 256, 0, 0, 0],
    f32dec := fun l => (l.getD 0 0 : ℚ),
    i16enc := fun z => [z.toNat % 256, 0],
    i16dec := fun l => (l.getD 0 0 : ℤ) }

/-- A concrete dataset: 3 examples, board size 1, 2 input planes. -/
def dW : DataSet :=
  { pos_features := [[1, 0], [0, 1], [1, 1]],
    next_moves := [[1], [0], [1]],
    results := [5, 7, 9],
    is_test := true,
    board_size := 1,
    input_planes := 2,
    index_within_epoch := 2 }

theorem get_batch_epoch_boundary_witness :
    dW.next_moves.length = dW.data_size ∧ 2 < dW.data_size ∧
      dW.index_within_epoch ≤ dW.data_size ∧ [2, 0, 1].length = dW.data_size ∧
      (∀ j ∈ [2, 0, 1], j < dW.data_size) ∧
      (∃ A B d', dW.get_batch 2 [2, 0, 1] = some ((A, B), d') ∧
        d'.data_size = dW.data_size ∧
        d'.next_moves.length = d'.data_size ∧
        d'.index_within_epoch ≤ d'.data_size ∧
        2 ≤ d'.index_within_epoch ∧
        A = (d'.pos_features.drop (d'.index_within_epoch - 2)).take 2 ∧
        B = (d'.next_moves.drop (d'.index_within_epoch - 2)).take 2 ∧
        (dW.data_size < dW.index_within_epoch + 2 →
          d'.pos_features = applyPerm [2, 0, 1] dW.pos_features ∧
          d'.next_moves = applyPerm [2, 0, 1] dW.next_moves ∧
          d'.index_within_epoch = 2 ∧
          A = (applyPerm [2, 0, 1] dW.pos_features).take 2 ∧
          B = (applyPerm [2, 0, 1] dW.next_moves).take 2 ∧
          (∀ i, i < 2 →
            A[i]? = dW.pos_features[[2, 0, 1].getD i 0]? ∧
            B[i]? = dW.next_moves[[2, 0, 1].getD i 0]?)) ∧
        (dW.index_within_epoch + 2 ≤ dW.data_size →
          d'.pos_features = dW.pos_features ∧
          d'.next_moves = dW.next_moves ∧
          d'.index_within_epoch = dW.index_within_epoch + 2)) :=
  ⟨by decide, by decide, by decide, by decide, by decide,
    get_batch_epoch_boundary dW 2 [2, 0, 1] (by decide) (by decide) (by decide)
      (by decide) (by decide)⟩

theorem get_batch_rejects_full_size_witness :
    dW.data_size ≤ 3 ∧ dW.get_batch 3 [0, 1, 2] = none :=
  ⟨by decide, get_batch_rejects_full_size dW 3 [0, 1, 2] (by decide)⟩

/-! ### Bit-packing lemmas -/

theorem bitsOfByte_byteVal (b0 b1 b2 b3 b4 b5 b6 b7 : Bool) :
    bitsOfByte (byteVal b0 b1 b2 b3 b4 b5 b6 b7) =
      [cond b0 1 0, cond b1 1 0, cond b2 1 0, cond b3 1 0,
       cond b4 1 0, cond b5 1 0, cond b6 1 0, cond b7 1 0] := by
  revert b0 b1 b2 b3 b4 b5 b6 b7
  decide

theorem packbits_length : ∀ bs : List Bool,
    (packbits bs).length = (bs.length + 7) / 8 := by
  intro bs
  induction bs using packbits.induct <;> simp [packbits, List.length_cons, *] <;> omega

theorem unpackbits_packbits_take : ∀ bs : List Bool,
    (unpackbits (packbits bs)).take bs.length = bs.map (fun b => cond b 1 0) := by
  intro bs
  induction bs using packbits.induct with
  | case1 => simp [packbits, unpackbits]
  | case2 b0 => simp [packbits, unpackbits, bitsOfByte_byteVal]
  | case3 b0 b1 => simp [packbits, unpackbits, bitsOfByte_byteVal]
  | case4 b0 b1 b2 => simp [packbits, unpackbits, bitsOfByte_byteVal]
  | case5 b0 b1 b2 b3 => simp [packbits, unpackbits, bitsOfByte_byteVal]
  | case6 b0 b1 b2 b3 b4 => simp [packbits, unpackbits, bitsOfByte_byteVal]
  | case7 b0 b1 b2 b3 b4 b5 => simp [packbits, unpackbits, bitsOfByte_byteVal]
  | case8 b0 b1 b2 b3 b4 b5 b6 =>
    simp [packbits, unpackbits, bitsOfByte_byteVal]
  | case9 b0 b1 b2 b3 b4 b5 b6 b7 rest ih =>
    simp only [packbits, unpackbits, List.flatMap_cons, bitsOfByte_byteVal,
      List.map_cons, List.length_cons]
    simp only [unpackbits] at ih
    simp [List.take_succ_cons, ih]

/-- C7: `full` packing round-trip under the {0,1} assumption — unpacking the
packed bits MSB-first and truncating to the original element count (the read
path's slice, `pySliceTo`) reproduces the tensor exactly, at any length
including ones not divisible by 8. -/
theorem fullpack_unpack_roundtrip_binary (xs : List ℚ)
    (h : ∀ x ∈ xs, x = 0 ∨ x = 1) :
    ((unpackbits (fullpack xs)).take xs.length).map (fun b : Nat => (b : ℚ)) = xs ∧
      (pySliceTo (xs.length : Int) (unpackbits (fullpack xs))).map
        (fun b : Nat => (b : ℚ)) = xs := by
  have key : (unpackbits (fullpack xs)).take xs.length =
      (xs.map (fun x => decide (x = 1))).map (fun b => cond b 1 0) := by
    have hk := unpackbits_packbits_take (xs.map (fun x => decide (x = 1)))
    simpa [fullpack] using hk
  have helem : ∀ x ∈ xs,
      ((cond (decide (x = 1)) 1 0 : Nat) : ℚ) = x := by
    intro x hx
    rcases h x hx with h0 | h1
    · subst h0; norm_num
    · subst h1; norm_num
  have main : ((unpackbits (fullpack xs)).take xs.length).map
      (fun b : Nat => (b : ℚ)) = xs := by
    rw [key, List.map_map, List.map_map]
    calc xs.map ((fun b : Nat => (b : ℚ)) ∘ (fun b => cond b 1 0) ∘
            (fun x => decide (x = 1)))
        = xs.map id := List.map_congr_left helem
      _ = xs := List.map_id xs
  refine ⟨main, ?_⟩
  have : pySliceTo (xs.length : Int) (unpackbits (fullpack xs)) =
      (unpackbits (fullpack xs)).take xs.length := by
    simp [pySliceTo]
  rw [this, main]

theorem fullpack_unpack_roundtrip_binary_witness :
    (∀ x ∈ ([1, 0, 1, 1, 0, 0, 0, 1, 1, 0, 1, 0, 1] : List ℚ), x = 0 ∨ x = 1) ∧
      ((unpackbits (fullpack ([1, 0, 1, 1, 0, 0, 0, 1, 1, 0, 1, 0, 1] : List ℚ))).take
          ([1, 0, 1, 1, 0, 0, 0, 1, 1, 0, 1, 0, 1] : List ℚ).length).map
        (fun b : Nat => (b : ℚ)) = [1, 0, 1, 1, 0, 0, 0, 1, 1, 0, 1, 0, 1] ∧
      (pySliceTo (([1, 0, 1, 1, 0, 0, 0, 1, 1, 0, 1, 0, 1] : List ℚ).length : Int)
          (unpackbits (fullpack ([1, 0, 1, 1, 0, 0, 0, 1, 1, 0, 1, 0, 1] : List ℚ)))).map
        (fun b : Nat => (b : ℚ)) = [1, 0, 1, 1, 0, 0, 0, 1, 1, 0, 1, 0, 1] :=
  ⟨by decide,
    (fullpack_unpack_roundtrip_binary [1, 0, 1, 1, 0, 0, 0, 1, 1, 0, 1, 0, 1]
      (by decide)).1,
    (fullpack_unpack_roundtrip_binary [1, 0, 1, 1, 0, 0, 0, 1, 1, 0, 1, 0, 1]
      (by decide)).2⟩

/-- C8: both lossy strategies implement the exact-equality-with-1 rule: an
element decodes to 1 exactly when it equals 1, and every other value —
2, negative, fractional — packs as 0 and decodes to 0; the packers are total,
raising no error on out-of-{0,1} inputs. -/
theorem lossy_packing_equality_with_one (xs : List ℚ) :
    (halfpack xs).map (fun b : Nat => (b : ℚ)) =
      xs.map (fun x => if x = 1 then 1 else 0) ∧
      ((unpackbits (fullpack xs)).take xs.length).map (fun b : Nat => (b : ℚ)) =
        xs.map (fun x => if x = 1 then 1 else 0) := by
  constructor
  · rw [halfpack, List.map_map]
    apply List.map_congr_left
    intro x _
    by_cases hx1 : x = 1 <;> simp [hx1]
  · have key : (unpackbits (fullpack xs)).take xs.length =
        (xs.map (fun x => decide (x = 1))).map (fun b => cond b 1 0) := by
      have hk := unpackbits_packbits_take (xs.map (fun x => decide (x = 1)))
      simpa [fullpack] using hk
    rw [key, List.map_map, List.map_map]
    apply List.map_congr_left
    intro x _
    by_cases hx1 : x = 1 <;> simp [hx1]

/-! ### Header and payload lemmas -/

theorem encI32_length (n : Nat) : (encI32 n).length = 4 := rfl

theorem encHeader_length (n b p : Nat) (t : Bool) :
    (encHeader n b p t).length = 13 := by
  simp [encHeader, encI32]

theorem decI32_encI32 (n : Nat) (h : n < 2 ^ 31) :
    decI32 (encI32 n) = (n : Int) := by
  unfold decI32 encI32
  simp only [List.getD_cons_zero, List.getD_cons_succ]
  have hu : n % 256 + 256 * (n / 256 % 256) + 65536 * (n / 65536 % 256) +
      16777216 * (n / 16777216 % 256) = n := by omega
  rw [hu, if_pos (by omega)]

theorem decHeader_encHeader (n b p : Nat) (t : Bool) (hn : n < 2 ^ 31)
    (hb : b < 2 ^ 31) (hp : p < 2 ^ 31) :
    decHeader (encHeader n b p t) = ((n : Int), (b : Int), (p : Int), t) := by
  have h1 : (encHeader n b p t).take 4 = encI32 n := by
    simp [encHeader, encI32]
  have h2 : ((encHeader n b p t).drop 4).take 4 = encI32 b := by
    simp [encHeader, encI32]
  have h3 : ((encHeader n b p t).drop 8).take 4 = encI32 p := by
    simp [encHeader, encI32]
  have h4 : (encHeader n b p t).getD 12 0 = cond t 1 0 := by
    simp [encHeader, encI32, List.getD_append_right]
  unfold decHeader
  rw [h1, h2, h3, h4, decI32_encI32 n hn, decI32_encI32 b hb, decI32_encI32 p hp]
  cases t <;> rfl

theorem pyRead_exact (xs ys : List Nat) (n : Int) (h : n = (xs.length : Int)) :
    pyRead n (xs ++ ys) = (xs, ys) := by
  subst h
  unfold pyRead
  rw [if_neg (by omega)]
  simp

theorem flatten_length_const {α : Type u} (rows : List (List α)) (k : Nat)
    (h : ∀ r ∈ rows, r.length = k) :
    rows.flatten.length = rows.length * k := by
  induction rows with
  | nil => simp
  | cons r rows ih =>
    simp only [List.flatten_cons, List.length_append, List.length_cons]
    rw [h r (by simp), ih (fun r hr => h r (by simp [hr]))]
    ring

theorem nopack_length {α : Type u} (enc : α → List Nat) (xs : List α) (k : Nat)
    (h : ∀ x ∈ xs, (enc x).length = k) :
    (nopack enc xs).length = k * xs.length := by
  induction xs with
  | nil => simp [nopack]
  | cons x xs ih =>
    have ihx := ih (fun y hy => h y (by simp [hy]))
    simp only [nopack, List.flatMap_cons, List.length_append, List.length_cons] at ihx ⊢
    rw [h x (by simp), ihx]
    ring

theorem halfpack_length {α : Type u} [One α] [DecidableEq α] (xs : List α) :
    (halfpack xs).length = xs.length := by
  simp [halfpack]

theorem fullpack_length {α : Type u} [One α] [DecidableEq α] (xs : List α) :
    (fullpack xs).length = (xs.length + 7) / 8 := by
  rw [fullpack, packbits_length]
  simp

theorem exists_list4 {l : List Nat} (h : l.length = 4) :
    ∃ a b c d, l = [a, b, c, d] := by
  match l, h with
  | [a, b, c, d], _ => exact ⟨a, b, c, d, rfl⟩

theorem exists_list2 {l : List Nat} (h : l.length = 2) :
    ∃ a b, l = [a, b] := by
  match l, h with
  | [a, b], _ => exact ⟨a, b, rfl⟩

theorem fromstring4_nopack (dec : List Nat → ℚ) (enc : ℚ → List Nat)
    (xs : List ℚ) (h : ∀ x ∈ xs, (enc x).length = 4) :
    fromstring4 dec (nopack enc xs) = xs.map (fun x => dec (enc x)) := by
  induction xs with
  | nil => simp [nopack, fromstring4]
  | cons x xs ih =>
    obtain ⟨a, b, c, d, he⟩ := exists_list4 (h x (by simp))
    have ihx := ih (fun y hy => h y (by simp [hy]))
    simp only [nopack, List.flatMap_cons, he, List.cons_append, List.nil_append,
      fromstring4, List.map_cons] at ihx ⊢
    rw [ihx, ← he]

theorem fromstring2_nopack (dec : List Nat → ℤ) (enc : ℤ → List Nat)
    (xs : List ℤ) (h : ∀ x ∈ xs, (enc x).length = 2) :
    fromstring2 dec (nopack enc xs) = xs.map (fun x => dec (enc x)) := by
  induction xs with
  | nil => simp [nopack, fromstring2]
  | cons x xs ih =>
    obtain ⟨a, b, he⟩ := exists_list2 (h x (by simp))
    have ihx := ih (fun y hy => h y (by simp [hy]))
    simp only [nopack, List.flatMap_cons, he, List.cons_append, List.nil_append,
      fromstring2, List.map_cons] at ihx ⊢
    rw [ihx, ← he]

theorem halfpack_decode {α : Type} [AddMonoidWithOne α] [DecidableEq α]
    [NeZero (1 : α)] (xs : List α) (h : ∀ x ∈ xs, x = 0 ∨ x = 1) :
    (halfpack xs).map (fun b : Nat => (b : α)) = xs := by
  rw [halfpack, List.map_map]
  calc xs.map ((fun b : Nat => (b : α)) ∘ fun x => if x = 1 then 1 else 0)
      = xs.map id := by
        apply List.map_congr_left
        intro x hx
        rcases h x hx with h0 | h1
        · subst h0; simp [zero_ne_one]
        · subst h1; simp
    _ = xs := List.map_id xs

theorem fullpack_decode {α : Type} [AddMonoidWithOne α] [DecidableEq α]
    [NeZero (1 : α)] (xs : List α) (h : ∀ x ∈ xs, x = 0 ∨ x = 1) :
    ((unpackbits (fullpack xs)).take xs.length).map (fun b : Nat => (b : α)) =
      xs := by
  have key : (unpackbits (fullpack xs)).take xs.length =
      (xs.map (fun x => decide (x = 1))).map (fun b => cond b 1 0) := by
    have hk := unpackbits_packbits_take (xs.map (fun x => decide (x = 1)))
    simpa [fullpack] using hk
  rw [key, List.map_map, List.map_map]
  calc xs.map ((fun b : Nat => (b : α)) ∘ (fun b => cond b 1 0) ∘
          fun x => decide (x = 1))
      = xs.map id := by
        apply List.map_congr_left
        intro x hx
        rcases h x hx with h0 | h1
        · subst h0; simp [zero_ne_one]
        · subst h1; simp
    _ = xs := List.map_id xs

/-- The dataset `DataSet.read` reconstructs from a file written from `d`:
same arrays and flags, empty results, fresh batching cursor. -/
def readBack (d : DataSet) : DataSet :=
  { d with results := [], index_within_epoch := 0 }

theorem reshapeRows_flatten {α : Type u} (rows : List (List α)) (k : Nat)
    (h : ∀ r ∈ rows, r.length = k) :
    reshapeRows rows.length k rows.flatten = rows := by
  induction rows with
  | nil => simp [reshapeRows]
  | cons r rows ih =>
    simp only [List.length_cons, List.flatten_cons, reshapeRows]
    rw [List.take_left' (h r (by simp)), List.drop_left' (h r (by simp)),
      ih (fun s hs => h s (by simp [hs]))]

theorem readPlain_none (ext : ExtCodecs) (d : DataSet) (extra : List Nat)
    (hwf : d.WF)
    (hN : d.data_size < 2 ^ 31) (hB : d.board_size < 2 ^ 31)
    (hP : d.input_planes < 2 ^ 31)
    (hencF : ∀ x ∈ d.pos_features.flatten, (ext.f32enc x).length = 4)
    (hdecF : ∀ x ∈ d.pos_features.flatten, ext.f32dec (ext.f32enc x) = x)
    (hencL : ∀ x ∈ d.next_moves.flatten, (ext.i16enc x).length = 2)
    (hdecL : ∀ x ∈ d.next_moves.flatten, ext.i16dec (ext.i16enc x) = x) :
    readPlain ext
        (encHeader d.data_size d.board_size d.input_planes d.is_test ++
          (nopack ext.f32enc d.pos_features.flatten ++
            (nopack ext.i16enc d.next_moves.flatten ++ extra))) "none" =
      if extra = [] then Except.ok (readBack d)
      else Except.error PyErr.truncation := by
  obtain ⟨hw1, hw2, hw3⟩ := hwf
  have hds : d.data_size = d.pos_features.length := rfl
  have hflatP : d.pos_features.flatten.length =
      d.pos_features.length * (d.board_size * d.board_size * d.input_planes) :=
    flatten_length_const _ _ hw2
  have hflatL : d.next_moves.flatten.length =
      d.next_moves.length * (d.board_size * d.board_size) :=
    flatten_length_const _ _ hw3
  have hlenP : (nopack ext.f32enc d.pos_features.flatten).length =
      4 * (d.pos_features.length *
        (d.board_size * d.board_size * d.input_planes)) := by
    rw [nopack_length _ _ 4 hencF, hflatP]
  have hlenL : (nopack ext.i16enc d.next_moves.flatten).length =
      2 * (d.next_moves.length * (d.board_size * d.board_size)) := by
    rw [nopack_length _ _ 2 hencL, hflatL]
  have e13 : (encHeader d.data_size d.board_size d.input_planes
      d.is_test).length = 13 := encHeader_length _ _ _ _
  have hdec : decHeader (encHeader d.data_size d.board_size d.input_planes
      d.is_test) = ((d.data_size : Int), (d.board_size : Int),
        (d.input_planes : Int), d.is_test) :=
    decHeader_encHeader _ _ _ _ hN hB hP
  have hpy1 : pyRead ((d.data_size : Int) * (d.board_size : Int) *
        (d.board_size : Int) * (d.input_planes : Int) * 4)
      (nopack ext.f32enc d.pos_features.flatten ++
        (nopack ext.i16enc d.next_moves.flatten ++ extra)) =
      (nopack ext.f32enc d.pos_features.flatten,
        nopack ext.i16enc d.next_moves.flatten ++ extra) :=
    pyRead_exact _ _ _ (by rw [hlenP, hds]; push_cast; ring)
  have hpy2 : pyRead ((d.data_size : Int) * (d.board_size : Int) *
        (d.board_size : Int) * 2)
      (nopack ext.i16enc d.next_moves.flatten ++ extra) =
      (nopack ext.i16enc d.next_moves.flatten, extra) :=
    pyRead_exact _ _ _ (by rw [hlenL, hw1]; push_cast; ring)
  have hdecodeP : fromstring4 ext.f32dec
      (nopack ext.f32enc d.pos_features.flatten) = d.pos_features.flatten := by
    rw [fromstring4_nopack _ _ _ hencF]
    calc d.pos_features.flatten.map (fun x => ext.f32dec (ext.f32enc x))
        = d.pos_features.flatten.map id := List.map_congr_left hdecF
      _ = _ := List.map_id _
  have hdecodeL : fromstring2 ext.i16dec
      (nopack ext.i16enc d.next_moves.flatten) = d.next_moves.flatten := by
    rw [fromstring2_nopack _ _ _ hencL]
    calc d.next_moves.flatten.map (fun x => ext.i16dec (ext.i16enc x))
        = d.next_moves.flatten.map id := List.map_congr_left hdecL
      _ = _ := List.map_id _
  unfold readPlain
  simp only [CHUNK_HEADER_SIZE]
  rw [if_neg (by simp [List.length_append, e13])]
  simp only [List.take_left' e13, List.drop_left' e13]
  simp only [hdec]
  simp only [String.reduceEq, true_or, or_true, false_or, or_false, or_self, reduceIte]
  simp only [hpy1, hpy2, hlenP, hlenL]
  simp only [Nat.mul_mod_right, ne_eq, not_true_eq_false, reduceIte]
  rw [hdecodeP, hdecodeL]
  have heqP : ((d.pos_features.flatten.length : Nat) : Int) =
      (d.data_size : Int) * (d.board_size : Int) * (d.board_size : Int) *
        (d.input_planes : Int) := by
    push_cast [hflatP, hds]; ring
  have heqL : ((d.next_moves.flatten.length : Nat) : Int) =
      (d.data_size : Int) * (d.board_size : Int) * (d.board_size : Int) := by
    push_cast [hflatL, hw1, hds]; ring
  have hc1 : ¬((d.data_size : Int) < 0 ∨ (d.board_size : Int) < 0 ∨
      (d.input_planes : Int) < 0) := by
    omega
  have hw1' : d.next_moves.length = d.pos_features.length := hw1.trans hds
  by_cases hx : extra = []
  · subst hx
    rw [if_pos rfl]
    simp only [not_false_eq_true, reduceIte]
    rw [if_neg (by simp)]
    rw [if_neg hc1]
    rw [if_neg (not_not_intro heqP)]
    rw [if_neg (not_not_intro heqL)]
    simp only [Int.toNat_natCast]
    rw [hds, reshapeRows_flatten _ _ hw2, ← hw1',
      reshapeRows_flatten _ _ hw3]
    rfl
  · rw [if_neg hx]
    simp only [hx, not_false_eq_true, reduceIte]

theorem pySliceTo_natCast {α : Type u} (n : Nat) (xs : List α) :
    pySliceTo ((n : Nat) : Int) xs = xs.take n := by
  simp [pySliceTo]

theorem fdiv_eight_natCast (m : Nat) :
    ((m : Int) + 7).fdiv 8 = (((m + 7) / 8 : Nat) : Int) := by
  rw [show ((m : Int) + 7) = (((m + 7 : Nat) : Nat) : Int) by push_cast; ring]
  rfl

theorem readPlain_half (ext : ExtCodecs) (d : DataSet) (extra : List Nat)
    (hwf : d.WF)
    (hN : d.data_size < 2 ^ 31) (hB : d.board_size < 2 ^ 31)
    (hP : d.input_planes < 2 ^ 31)
    (hbinF : ∀ x ∈ d.pos_features.flatten, x = 0 ∨ x = 1)
    (hbinL : ∀ x ∈ d.next_moves.flatten, x = 0 ∨ x = 1) :
    readPlain ext
        (encHeader d.data_size d.board_size d.input_planes d.is_test ++
          (halfpack d.pos_features.flatten ++
            (halfpack d.next_moves.flatten ++ extra))) "half" =
      if extra = [] then Except.ok (readBack d)
      else Except.error PyErr.truncation := by
  obtain ⟨hw1, hw2, hw3⟩ := hwf
  have hds : d.data_size = d.pos_features.length := rfl
  have hflatP : d.pos_features.flatten.length =
      d.pos_features.length * (d.board_size * d.board_size * d.input_planes) :=
    flatten_length_const _ _ hw2
  have hflatL : d.next_moves.flatten.length =
      d.next_moves.length * (d.board_size * d.board_size) :=
    flatten_length_const _ _ hw3
  have e13 : (encHeader d.data_size d.board_size d.input_planes
      d.is_test).length = 13 := encHeader_length _ _ _ _
  have hdec : decHeader (encHeader d.data_size d.board_size d.input_planes
      d.is_test) = ((d.data_size : Int), (d.board_size : Int),
        (d.input_planes : Int), d.is_test) :=
    decHeader_encHeader _ _ _ _ hN hB hP
  have hpy1 : pyRead ((d.data_size : Int) * (d.board_size : Int) *
        (d.board_size : Int) * (d.input_planes : Int))
      (halfpack d.pos_features.flatten ++
        (halfpack d.next_moves.flatten ++ extra)) =
      (halfpack d.pos_features.flatten,
        halfpack d.next_moves.flatten ++ extra) :=
    pyRead_exact _ _ _ (by rw [halfpack_length, hflatP, hds]; push_cast; ring)
  have hpy2 : pyRead ((d.data_size : Int) * (d.board_size : Int) *
        (d.board_size : Int))
      (halfpack d.next_moves.flatten ++ extra) =
      (halfpack d.next_moves.flatten, extra) :=
    pyRead_exact _ _ _ (by rw [halfpack_length, hflatL, hw1]; push_cast; ring)
  have hdecodeP : (halfpack d.pos_features.flatten).map
      (fun b : Nat => (b : ℚ)) = d.pos_features.flatten :=
    halfpack_decode _ hbinF
  have hdecodeL : (halfpack d.next_moves.flatten).map
      (fun b : Nat => (b : ℤ)) = d.next_moves.flatten :=
    halfpack_decode _ hbinL
  unfold readPlain
  simp only [CHUNK_HEADER_SIZE]
  rw [if_neg (by simp [List.length_append, e13])]
  simp only [List.take_left' e13, List.drop_left' e13]
  simp only [hdec]
  simp only [String.reduceEq, true_or, or_true, false_or, or_false, or_self, reduceIte]
  simp only [hpy1, hpy2]
  rw [hdecodeP, hdecodeL]
  have heqP : ((d.pos_features.flatten.length : Nat) : Int) =
      (d.data_size : Int) * (d.board_size : Int) * (d.board_size : Int) *
        (d.input_planes : Int) := by
    push_cast [hflatP, hds]; ring
  have heqL : ((d.next_moves.flatten.length : Nat) : Int) =
      (d.data_size : Int) * (d.board_size : Int) * (d.board_size : Int) := by
    push_cast [hflatL, hw1, hds]; ring
  have hc1 : ¬((d.data_size : Int) < 0 ∨ (d.board_size : Int) < 0 ∨
      (d.input_planes : Int) < 0) := by
    omega
  have hw1' : d.next_moves.length = d.pos_features.length := hw1.trans hds
  by_cases hx : extra = []
  · subst hx
    rw [if_pos rfl]
    rw [if_neg (not_not_intro rfl)]
    rw [if_neg hc1]
    rw [if_neg (not_not_intro heqP)]
    rw [if_neg (not_not_intro heqL)]
    simp only [Int.toNat_natCast]
    rw [hds, reshapeRows_flatten _ _ hw2, ← hw1',
      reshapeRows_flatten _ _ hw3]
    rfl
  · rw [if_neg hx, if_pos hx]

theorem readPlain_full (ext : ExtCodecs) (d : DataSet) (extra : List Nat)
    (hwf : d.WF)
    (hN : d.data_size < 2 ^ 31) (hB : d.board_size < 2 ^ 31)
    (hP : d.input_planes < 2 ^ 31)
    (hbinF : ∀ x ∈ d.pos_features.flatten, x = 0 ∨ x = 1)
    (hbinL : ∀ x ∈ d.next_moves.flatten, x = 0 ∨ x = 1) :
    readPlain ext
        (encHeader d.data_size d.board_size d.input_planes d.is_test ++
          (fullpack d.pos_features.flatten ++
            (fullpack d.next_moves.flatten ++ extra))) "full" =
      if extra = [] then Except.ok (readBack d)
      else Except.error PyErr.truncation := by
  obtain ⟨hw1, hw2, hw3⟩ := hwf
  have hds : d.data_size = d.pos_features.length := rfl
  have hflatP : d.pos_features.flatten.length =
      d.pos_features.length * (d.board_size * d.board_size * d.input_planes) :=
    flatten_length_const _ _ hw2
  have hflatL : d.next_moves.flatten.length =
      d.next_moves.length * (d.board_size * d.board_size) :=
    flatten_length_const _ _ hw3
  have heqP : ((d.pos_features.flatten.length : Nat) : Int) =
      (d.data_size : Int) * (d.board_size : Int) * (d.board_size : Int) *
        (d.input_planes : Int) := by
    push_cast [hflatP, hds]; ring
  have heqL : ((d.next_moves.flatten.length : Nat) : Int) =
      (d.data_size : Int) * (d.board_size : Int) * (d.board_size : Int) := by
    push_cast [hflatL, hw1, hds]; ring
  have e13 : (encHeader d.data_size d.board_size d.input_planes
      d.is_test).length = 13 := encHeader_length _ _ _ _
  have hdec : decHeader (encHeader d.data_size d.board_size d.input_planes
      d.is_test) = ((d.data_size : Int), (d.board_size : Int),
        (d.input_planes : Int), d.is_test) :=
    decHeader_encHeader _ _ _ _ hN hB hP
  have hpy1 : pyRead (((d.data_size : Int) * (d.board_size : Int) *
        (d.board_size : Int) * (d.input_planes : Int) + 7).fdiv 8)
      (fullpack d.pos_features.flatten ++
        (fullpack d.next_moves.flatten ++ extra)) =
      (fullpack d.pos_features.flatten,
        fullpack d.next_moves.flatten ++ extra) :=
    pyRead_exact _ _ _ (by
      rw [fullpack_length, ← heqP, fdiv_eight_natCast])
  have hpy2 : pyRead (((d.data_size : Int) * (d.board_size : Int) *
        (d.board_size : Int) + 7).fdiv 8)
      (fullpack d.next_moves.flatten ++ extra) =
      (fullpack d.next_moves.flatten, extra) :=
    pyRead_exact _ _ _ (by
      rw [fullpack_length, ← heqL, fdiv_eight_natCast])
  have hsliceP : (pySliceTo ((d.data_size : Int) * (d.board_size : Int) *
        (d.board_size : Int) * (d.input_planes : Int))
      (unpackbits (fullpack d.pos_features.flatten))).map
        (fun b : Nat => (b : ℚ)) = d.pos_features.flatten := by
    rw [← heqP, pySliceTo_natCast]
    exact fullpack_decode _ hbinF
  have hsliceL : (pySliceTo ((d.data_size : Int) * (d.board_size : Int) *
        (d.board_size : Int))
      (unpackbits (fullpack d.next_moves.flatten))).map
        (fun b : Nat => (b : ℤ)) = d.next_moves.flatten := by
    rw [← heqL, pySliceTo_natCast]
    exact fullpack_decode _ hbinL
  unfold readPlain
  simp only [CHUNK_HEADER_SIZE]
  rw [if_neg (by simp [List.length_append, e13])]
  simp only [List.take_left' e13, List.drop_left' e13]
  simp only [hdec]
  simp only [String.reduceEq, true_or, or_true, false_or, or_false, or_self, reduceIte]
  simp only [hpy1, hpy2]
  rw [hsliceP, hsliceL]
  have hc1 : ¬((d.data_size : Int) < 0 ∨ (d.board_size : Int) < 0 ∨
      (d.input_planes : Int) < 0) := by
    omega
  have hw1' : d.next_moves.length = d.pos_features.length := hw1.trans hds
  by_cases hx : extra = []
  · subst hx
    rw [if_pos rfl]
    rw [if_neg (not_not_intro rfl)]
    rw [if_neg hc1]
    rw [if_neg (not_not_intro heqP)]
    rw [if_neg (not_not_intro heqL)]
    simp only [Int.toNat_natCast]
    rw [hds, reshapeRows_flatten _ _ hw2, ← hw1',
      reshapeRows_flatten _ _ hw3]
    rfl
  · rw [if_neg hx, if_pos hx]

/-- The header fields fit `struct.pack("i", ...)`'s signed 32-bit range. -/
def SizesRepresentable (d : DataSet) : Prop :=
  d.data_size < 2 ^ 31 ∧ d.board_size < 2 ^ 31 ∧ d.input_planes < 2 ^ 31

instance (d : DataSet) : Decidable (SizesRepresentable d) := by
  unfold SizesRepresentable; infer_instance

/-- The spec's "representable under the chosen packing": under `none` the
dtype codec must invert on every stored element (with its fixed width);
under the lossy `half`/`full` every element must already be 0 or 1. -/
def PackRepresentable (ext : ExtCodecs) (packing : String) (d : DataSet) :
    Prop :=
  if packing = "none" then
    (∀ x ∈ d.pos_features.flatten,
      (ext.f32enc x).length = 4 ∧ ext.f32dec (ext.f32enc x) = x) ∧
    (∀ x ∈ d.next_moves.flatten,
      (ext.i16enc x).length = 2 ∧ ext.i16dec (ext.i16enc x) = x)
  else
    (∀ x ∈ d.pos_features.flatten, x = 0 ∨ x = 1) ∧
    (∀ x ∈ d.next_moves.flatten, x = 0 ∨ x = 1)

/-- The compression libraries' contract: decompression inverts compression
at both gzip levels and for snappy. -/
def CompressionInverts (ext : ExtCodecs) : Prop :=
  (∀ x, ext.gzipD (ext.gzipC 6 x) = x) ∧
    (∀ x, ext.gzipD (ext.gzipC 9 x) = x) ∧
    (∀ x, ext.snappyD (ext.snappyC x) = x)



/-- C1: for every supported compression and packing pair, reading a written
dataset returns the same features, labels, flags and shape, with an empty
results array. -/
theorem write_read_roundtrip (ext : ExtCodecs) (d : DataSet)
    (compression packing : String)
    (hc : compression ∈ ["none", "gzip6", "gzip9", "snappy"])
    (hp : packing ∈ ["none", "half", "full"])
    (hwf : d.WF) (hsz : SizesRepresentable d)
    (hcomp : CompressionInverts ext)
    (hrepr : PackRepresentable ext packing d) :
    ∃ file d', d.write ext compression packing = Except.ok (some file) ∧
      DataSet.read ext file compression packing = Except.ok d' ∧
      d'.pos_features = d.pos_features ∧ d'.next_moves = d.next_moves ∧
      d'.is_test = d.is_test ∧ d'.results = [] ∧
      d'.board_size = d.board_size ∧ d'.input_planes = d.input_planes ∧
      d'.data_size = d.data_size := by
  obtain ⟨hN, hB, hP⟩ := hsz
  obtain ⟨hgz6, hgz9, hsn⟩ := hcomp
  have hszneg : ¬(2 ^ 31 ≤ d.data_size ∨ 2 ^ 31 ≤ d.board_size ∨
      2 ^ 31 ≤ d.input_planes) := by omega
  simp only [List.mem_cons, List.not_mem_nil, or_false] at hc hp
  rcases hp with hp | hp | hp <;> subst hp
  · -- packing "none"
    obtain ⟨hreprF, hreprL⟩ := by
      simpa only [PackRepresentable, reduceIte] using hrepr
    have h0 := readPlain_none ext d [] hwf hN hB hP
      (fun x hx => (hreprF x hx).1) (fun x hx => (hreprF x hx).2)
      (fun x hx => (hreprL x hx).1) (fun x hx => (hreprL x hx).2)
    rw [List.append_nil, ← List.append_assoc, if_pos rfl] at h0
    rcases hc with hc | hc | hc | hc <;> subst hc
    · have hw : d.write ext "none" "none" = Except.ok (some
          (encHeader d.data_size d.board_size d.input_planes d.is_test ++
          nopack ext.f32enc d.pos_features.flatten ++
          nopack ext.i16enc d.next_moves.flatten)) := by
        unfold DataSet.write
        rw [if_neg hszneg]
        simp only [String.reduceEq, true_or, or_true, false_or, or_false,
          or_self, reduceIte]
      have hr : DataSet.read ext
          (encHeader d.data_size d.board_size d.input_planes d.is_test ++
          nopack ext.f32enc d.pos_features.flatten ++
          nopack ext.i16enc d.next_moves.flatten) "none" "none" =
          Except.ok (readBack d) := by
        unfold DataSet.read
        simp only [String.reduceEq, true_or, or_true, false_or, or_false,
          or_self, reduceIte]
        exact h0
      exact ⟨_, _, hw, hr, rfl, rfl, rfl, rfl, rfl, rfl, rfl⟩
    · have hw : d.write ext "gzip6" "none" = Except.ok (some
          (ext.gzipC 6
          (encHeader d.data_size d.board_size d.input_planes d.is_test ++
          nopack ext.f32enc d.pos_features.flatten ++
          nopack ext.i16enc d.next_moves.flatten))) := by
        unfold DataSet.write
        rw [if_neg hszneg]
        simp only [String.reduceEq, true_or, or_true, false_or, or_false,
          or_self, reduceIte]
      have hr : DataSet.read ext
          (ext.gzipC 6
          (encHeader d.data_size d.board_size d.input_planes d.is_test ++
          nopack ext.f32enc d.pos_features.flatten ++
          nopack ext.i16enc d.next_moves.flatten)) "gzip6" "none" =
          Except.ok (readBack d) := by
        unfold DataSet.read
        simp only [String.reduceEq, true_or, or_true, false_or, or_false,
          or_self, reduceIte]
        rw [hgz6]
        exact h0
      exact ⟨_, _, hw, hr, rfl, rfl, rfl, rfl, rfl, rfl, rfl⟩
    · have hw : d.write ext "gzip9" "none" = Except.ok (some
          (ext.gzipC 9
          (encHeader d.data_size d.board_size d.input_planes d.is_test ++
          nopack ext.f32enc d.pos_features.flatten ++
          nopack ext.i16enc d.next_moves.flatten))) := by
        unfold DataSet.write
        rw [if_neg hszneg]
        simp only [String.reduceEq, true_or, or_true, false_or, or_false,
          or_self, reduceIte]
      have hr : DataSet.read ext
          (ext.gzipC 9
          (encHeader d.data_size d.board_size d.input_planes d.is_test ++
          nopack ext.f32enc d.pos_features.flatten ++
          nopack ext.i16enc d.next_moves.flatten)) "gzip9" "none" =
          Except.ok (readBack d) := by
        unfold DataSet.read
        simp only [String.reduceEq, true_or, or_true, false_or, or_false,
          or_self, reduceIte]
        rw [hgz9]
        exact h0
      exact ⟨_, _, hw, hr, rfl, rfl, rfl, rfl, rfl, rfl, rfl⟩
    · have hw : d.write ext "snappy" "none" = Except.ok (some
          (ext.snappyC
          (encHeader d.data_size d.board_size d.input_planes d.is_test ++
          nopack ext.f32enc d.pos_features.flatten ++
          nopack ext.i16enc d.next_moves.flatten))) := by
        unfold DataSet.write
        rw [if_neg hszneg]
        simp only [String.reduceEq, true_or, or_true, false_or, or_false,
          or_self, reduceIte]
      have hr : DataSet.read ext
          (ext.snappyC
          (encHeader d.data_size d.board_size d.input_planes d.is_test ++
          nopack ext.f32enc d.pos_features.flatten ++
          nopack ext.i16enc d.next_moves.flatten)) "snappy" "none" =
          Except.ok (readBack d) := by
        unfold DataSet.read
        simp only [String.reduceEq, true_or, or_true, false_or, or_false,
          or_self, reduceIte]
        rw [hsn]
        exact h0
      exact ⟨_, _, hw, hr, rfl, rfl, rfl, rfl, rfl, rfl, rfl⟩
  · -- packing "half"
    obtain ⟨hreprF, hreprL⟩ := by
      simpa only [PackRepresentable, String.reduceEq, reduceIte] using hrepr
    have h0 := readPlain_half ext d [] hwf hN hB hP hreprF hreprL
    rw [List.append_nil, ← List.append_assoc, if_pos rfl] at h0
    rcases hc with hc | hc | hc | hc <;> subst hc
    · have hw : d.write ext "none" "half" = Except.ok (some
          (encHeader d.data_size d.board_size d.input_planes d.is_test ++
          halfpack d.pos_features.flatten ++
          halfpack d.next_moves.flatten)) := by
        unfold DataSet.write
        rw [if_neg hszneg]
        simp only [String.reduceEq, true_or, or_true, false_or, or_false,
          or_self, reduceIte]
      have hr : DataSet.read ext
          (encHeader d.data_size d.board_size d.input_planes d.is_test ++
          halfpack d.pos_features.flatten ++
          halfpack d.next_moves.flatten) "none" "half" =
          Except.ok (readBack d) := by
        unfold DataSet.read
        simp only [String.reduceEq, true_or, or_true, false_or, or_false,
          or_self, reduceIte]
        exact h0
      exact ⟨_, _, hw, hr, rfl, rfl, rfl, rfl, rfl, rfl, rfl⟩
    · have hw : d.write ext "gzip6" "half" = Except.ok (some
          (ext.gzipC 6
          (encHeader d.data_size d.board_size d.input_planes d.is_test ++
          halfpack d.pos_features.flatten ++
          halfpack d.next_moves.flatten))) := by
        unfold DataSet.write
        rw [if_neg hszneg]
        simp only [String.reduceEq, true_or, or_true, false_or, or_false,
          or_self, reduceIte]
      have hr : DataSet.read ext
          (ext.gzipC 6
          (encHeader d.data_size d.board_size d.input_planes d.is_test ++
          halfpack d.pos_features.flatten ++
          halfpack d.next_moves.flatten)) "gzip6" "half" =
          Except.ok (readBack d) := by
        unfold DataSet.read
        simp only [String.reduceEq, true_or, or_true, false_or, or_false,
          or_self, reduceIte]
        rw [hgz6]
        exact h0
      exact ⟨_, _, hw, hr, rfl, rfl, rfl, rfl, rfl, rfl, rfl⟩
    · have hw : d.write ext "gzip9" "half" = Except.ok (some
          (ext.gzipC 9
          (encHeader d.data_size d.board_size d.input_planes d.is_test ++
          halfpack d.pos_features.flatten ++
          halfpack d.next_moves.flatten))) := by
        unfold DataSet.write
        rw [if_neg hszneg]
        simp only [String.reduceEq, true_or, or_true, false_or, or_false,
          or_self, reduceIte]
      have hr : DataSet.read ext
          (ext.gzipC 9
          (encHeader d.data_size d.board_size d.input_planes d.is_test ++
          halfpack d.pos_features.flatten ++
          halfpack d.next_moves.flatten)) "gzip9" "half" =
          Except.ok (readBack d) := by
        unfold DataSet.read
        simp only [String.reduceEq, true_or, or_true, false_or, or_false,
          or_self, reduceIte]
        rw [hgz9]
        exact h0
      exact ⟨_, _, hw, hr, rfl, rfl, rfl, rfl, rfl, rfl, rfl⟩
    · have hw : d.write ext "snappy" "half" = Except.ok (some
          (ext.snappyC
          (encHeader d.data_size d.board_size d.input_planes d.is_test ++
          halfpack d.pos_features.flatten ++
          halfpack d.next_moves.flatten))) := by
        unfold DataSet.write
        rw [if_neg hszneg]
        simp only [String.reduceEq, true_or, or_true, false_or, or_false,
          or_self, reduceIte]
      have hr : DataSet.read ext
          (ext.snappyC
          (encHeader d.data_size d.board_size d.input_planes d.is_test ++
          halfpack d.pos_features.flatten ++
          halfpack d.next_moves.flatten)) "snappy" "half" =
          Except.ok (readBack d) := by
        unfold DataSet.read
        simp only [String.reduceEq, true_or, or_true, false_or, or_false,
          or_self, reduceIte]
        rw [hsn]
        exact h0
      exact ⟨_, _, hw, hr, rfl, rfl, rfl, rfl, rfl, rfl, rfl⟩
  · -- packing "full"
    obtain ⟨hreprF, hreprL⟩ := by
      simpa only [PackRepresentable, String.reduceEq, reduceIte] using hrepr
    have h0 := readPlain_full ext d [] hwf hN hB hP hreprF hreprL
    rw [List.append_nil, ← List.append_assoc, if_pos rfl] at h0
    rcases hc with hc | hc | hc | hc <;> subst hc
    · have hw : d.write ext "none" "full" = Except.ok (some
          (encHeader d.data_size d.board_size d.input_planes d.is_test ++
          fullpack d.pos_features.flatten ++
          fullpack d.next_moves.flatten)) := by
        unfold DataSet.write
        rw [if_neg hszneg]
        simp only [String.reduceEq, true_or, or_true, false_or, or_false,
          or_self, reduceIte]
      have hr : DataSet.read ext
          (encHeader d.data_size d.board_size d.input_planes d.is_test ++
          fullpack d.pos_features.flatten ++
          fullpack d.next_moves.flatten) "none" "full" =
          Except.ok (readBack d) := by
        unfold DataSet.read
        simp only [String.reduceEq, true_or, or_true, false_or, or_false,
          or_self, reduceIte]
        exact h0
      exact ⟨_, _, hw, hr, rfl, rfl, rfl, rfl, rfl, rfl, rfl⟩
    · have hw : d.write ext "gzip6" "full" = Except.ok (some
          (ext.gzipC 6
          (encHeader d.data_size d.board_size d.input_planes d.is_test ++
          fullpack d.pos_features.flatten ++
          fullpack d.next_moves.flatten))) := by
        unfold DataSet.write
        rw [if_neg hszneg]
        simp only [String.reduceEq, true_or, or_true, false_or, or_false,
          or_self, reduceIte]
      have hr : DataSet.read ext
          (ext.gzipC 6
          (encHeader d.data_size d.board_size d.input_planes d.is_test ++
          fullpack d.pos_features.flatten ++
          fullpack d.next_moves.flatten)) "gzip6" "full" =
          Except.ok (readBack d) := by
        unfold DataSet.read
        simp only [String.reduceEq, true_or, or_true, false_or, or_false,
          or_self, reduceIte]
        rw [hgz6]
        exact h0
      exact ⟨_, _, hw, hr, rfl, rfl, rfl, rfl, rfl, rfl, rfl⟩
    · have hw : d.write ext "gzip9" "full" = Except.ok (some
          (ext.gzipC 9
          (encHeader d.data_size d.board_size d.input_planes d.is_test ++
          fullpack d.pos_features.flatten ++
          fullpack d.next_moves.flatten))) := by
        unfold DataSet.write
        rw [if_neg hszneg]
        simp only [String.reduceEq, true_or, or_true, false_or, or_false,
          or_self, reduceIte]
      have hr : DataSet.read ext
          (ext.gzipC 9
          (encHeader d.data_size d.board_size d.input_planes d.is_test ++
          fullpack d.pos_features.flatten ++
          fullpack d.next_moves.flatten)) "gzip9" "full" =
          Except.ok (readBack d) := by
        unfold DataSet.read
        simp only [String.reduceEq, true_or, or_true, false_or, or_false,
          or_self, reduceIte]
        rw [hgz9]
        exact h0
      exact ⟨_, _, hw, hr, rfl, rfl, rfl, rfl, rfl, rfl, rfl⟩
    · have hw : d.write ext "snappy" "full" = Except.ok (some
          (ext.snappyC
          (encHeader d.data_size d.board_size d.input_planes d.is_test ++
          fullpack d.pos_features.flatten ++
          fullpack d.next_moves.flatten))) := by
        unfold DataSet.write
        rw [if_neg hszneg]
        simp only [String.reduceEq, true_or, or_true, false_or, or_false,
          or_self, reduceIte]
      have hr : DataSet.read ext
          (ext.snappyC
          (encHeader d.data_size d.board_size d.input_planes d.is_test ++
          fullpack d.pos_features.flatten ++
          fullpack d.next_moves.flatten)) "snappy" "full" =
          Except.ok (readBack d) := by
        unfold DataSet.read
        simp only [String.reduceEq, true_or, or_true, false_or, or_false,
          or_self, reduceIte]
        rw [hsn]
        exact h0
      exact ⟨_, _, hw, hr, rfl, rfl, rfl, rfl, rfl, rfl, rfl⟩

theorem write_read_roundtrip_witness :
    ∃ file d', dW.write extW "gzip9" "full" = Except.ok (some file) ∧
      DataSet.read extW file "gzip9" "full" = Except.ok d' ∧
      d'.pos_features = dW.pos_features ∧ d'.next_moves = dW.next_moves ∧
      d'.is_test = dW.is_test ∧ d'.results = [] ∧
      d'.board_size = dW.board_size ∧ d'.input_planes = dW.input_planes ∧
      d'.data_size = dW.data_size :=
  write_read_roundtrip extW dW "gzip9" "full" (by decide) (by decide)
    (by decide) (by decide)
    ⟨fun x => rfl, fun x => rfl, fun x => rfl⟩
    (by
      simp only [PackRepresentable, String.reduceEq, reduceIte]
      decide)

/-- C4: a file written with `none`/`none` read back with any nonempty byte
suffix appended fails the trailing-bytes assertion (`TruncationError`): the
reader consumes the 13-byte header plus exactly the payload length the header
implies, and anything left after that is an error. -/
theorem read_detects_trailing_bytes (ext : ExtCodecs) (d : DataSet)
    (file extra : List Nat)
    (hwf : d.WF) (hsz : SizesRepresentable d)
    (hrepr : PackRepresentable ext "none" d)
    (hfile : d.write ext "none" "none" = Except.ok (some file))
    (hx : extra ≠ []) :
    DataSet.read ext (file ++ extra) "none" "none" =
      Except.error PyErr.truncation := by
  obtain ⟨hN, hB, hP⟩ := hsz
  obtain ⟨hreprF, hreprL⟩ := by
    simpa only [PackRepresentable, reduceIte] using hrepr
  have hszneg : ¬(2 ^ 31 ≤ d.data_size ∨ 2 ^ 31 ≤ d.board_size ∨
      2 ^ 31 ≤ d.input_planes) := by omega
  have hw : d.write ext "none" "none" = Except.ok (some
      (encHeader d.data_size d.board_size d.input_planes d.is_test ++
        nopack ext.f32enc d.pos_features.flatten ++
        nopack ext.i16enc d.next_moves.flatten)) := by
    unfold DataSet.write
    rw [if_neg hszneg]
    simp only [String.reduceEq, true_or, or_true, false_or, or_false,
      or_self, reduceIte]
  have hfe : encHeader d.data_size d.board_size d.input_planes d.is_test ++
      nopack ext.f32enc d.pos_features.flatten ++
      nopack ext.i16enc d.next_moves.flatten = file :=
    Option.some.inj (Except.ok.inj (hw.symm.trans hfile))
  rw [← hfe]
  have h0 := readPlain_none ext d extra hwf hN hB hP
    (fun x hx' => (hreprF x hx').1) (fun x hx' => (hreprF x hx').2)
    (fun x hx' => (hreprL x hx').1) (fun x hx' => (hreprL x hx').2)
  rw [if_neg hx] at h0
  unfold DataSet.read
  simp only [String.reduceEq, true_or, or_true, false_or, or_false,
    or_self, reduceIte]
  rw [show (encHeader d.data_size d.board_size d.input_planes d.is_test ++
      nopack ext.f32enc d.pos_features.flatten ++
      nopack ext.i16enc d.next_moves.flatten) ++ extra =
      encHeader d.data_size d.board_size d.input_planes d.is_test ++
        (nopack ext.f32enc d.pos_features.flatten ++
          (nopack ext.i16enc d.next_moves.flatten ++ extra)) by
    simp [List.append_assoc]]
  exact h0

/-- The concrete bytes `dW.write extW "none" "none"` produces. -/
def fileW : List Nat :=
  match dW.write extW "none" "none" with
  | Except.ok (some f) => f
  | _ => []

theorem read_detects_trailing_bytes_witness :
    dW.WF ∧ SizesRepresentable dW ∧ ([0] : List Nat) ≠ [] ∧
      dW.write extW "none" "none" = Except.ok (some fileW) ∧
      DataSet.read extW (fileW ++ [0]) "none" "none" =
        Except.error PyErr.truncation := by
  have hw : dW.write extW "none" "none" = Except.ok (some fileW) := rfl
  refine ⟨by decide, by decide, by decide, hw, ?_⟩
  exact read_detects_trailing_bytes extW dW fileW [0] (by decide) (by decide)
    (by
      simp only [PackRepresentable, String.reduceEq, reduceIte]
      decide)
    hw (by decide)

/-- C9 counterexample: `DataSet.write` with an unrecognized compression
string and a valid packing does NOT fail — the compression dispatch has no
`else` branch, so the call completes silently, writing no file at all. -/
theorem write_unknown_compression_counterexample :
    dW.write extW "brotli" "none" = Except.ok none ∧
      ∀ e, dW.write extW "brotli" "none" ≠ Except.error e := by
  have h : dW.write extW "brotli" "none" = Except.ok none := rfl
  refine ⟨h, fun e he => ?_⟩
  rw [h] at he
  exact Except.noConfusion he

theorem readPlain_unknown_packing (ext : ExtCodecs) (plain : List Nat)
    (packing : String)
    (hp : packing ∉ (["none", "half", "full"] : List String)) :
    ∃ e, readPlain ext plain packing = Except.error e := by
  unfold readPlain
  by_cases h13 : plain.length < CHUNK_HEADER_SIZE
  · exact ⟨PyErr.structError, by rw [if_pos h13]⟩
  · simp only [List.mem_cons, List.not_mem_nil, or_false] at hp
    push_neg at hp
    obtain ⟨h1, h2, h3⟩ := hp
    rw [if_neg h13]
    dsimp only
    rw [if_neg h1, if_neg h2, if_neg h3]
    by_cases hb : plain.drop CHUNK_HEADER_SIZE ≠ []
    · exact ⟨PyErr.truncation, by rw [if_pos hb]⟩
    · exact ⟨PyErr.unboundLocal, by rw [if_neg hb]⟩

/-- C9 amended: read fails for an unknown compression (UnboundLocalError on
the never-assigned file object) and for an unknown packing (struct.error,
the trailing-bytes assertion, or UnboundLocalError); write fails with
KeyError for an unknown packing; but write with an unrecognized compression
and a valid packing raises nothing and silently writes no file. -/
theorem unsupported_option_amended (ext : ExtCodecs) :
    (∀ (d : DataSet) (compression packing : String),
      SizesRepresentable d →
      packing ∉ (["none", "half", "full"] : List String) →
      d.write ext compression packing = Except.error PyErr.keyError) ∧
    (∀ (d : DataSet) (compression packing : String),
      SizesRepresentable d →
      compression ∉ (["none", "gzip6", "gzip9", "snappy"] : List String) →
      packing ∈ (["none", "half", "full"] : List String) →
      d.write ext compression packing = Except.ok none) ∧
    (∀ (file : List Nat) (compression packing : String),
      compression ∉ (["none", "gzip6", "gzip9", "snappy"] : List String) →
      DataSet.read ext file compression packing =
        Except.error PyErr.unboundLocal) ∧
    (∀ (file : List Nat) (compression packing : String),
      compression ∈ (["none", "gzip6", "gzip9", "snappy"] : List String) →
      packing ∉ (["none", "half", "full"] : List String) →
      ∃ e, DataSet.read ext file compression packing = Except.error e) := by
  refine ⟨?_, ?_, ?_, ?_⟩
  · intro d compression packing hsz hp
    have hszneg : ¬(2 ^ 31 ≤ d.data_size ∨ 2 ^ 31 ≤ d.board_size ∨
        2 ^ 31 ≤ d.input_planes) := by
      obtain ⟨h1, h2, h3⟩ := hsz; omega
    simp only [List.mem_cons, List.not_mem_nil, or_false] at hp
    push_neg at hp
    obtain ⟨h1, h2, h3⟩ := hp
    unfold DataSet.write
    rw [if_neg hszneg, if_neg (by tauto)]
  · intro d compression packing hsz hc hp
    have hszneg : ¬(2 ^ 31 ≤ d.data_size ∨ 2 ^ 31 ≤ d.board_size ∨
        2 ^ 31 ≤ d.input_planes) := by
      obtain ⟨h1, h2, h3⟩ := hsz; omega
    simp only [List.mem_cons, List.not_mem_nil, or_false] at hc hp
    push_neg at hc
    obtain ⟨hc1, hc2, hc3, hc4⟩ := hc
    unfold DataSet.write
    rw [if_neg hszneg, if_pos hp, if_neg hc1, if_neg hc2, if_neg hc3,
      if_neg hc4]
  · intro file compression packing hc
    simp only [List.mem_cons, List.not_mem_nil, or_false] at hc
    push_neg at hc
    obtain ⟨hc1, hc2, hc3, hc4⟩ := hc
    unfold DataSet.read
    rw [if_neg hc1, if_neg (by tauto), if_neg hc4]
  · intro file compression packing hc hp
    simp only [List.mem_cons, List.not_mem_nil, or_false] at hc
    unfold DataSet.read
    rcases hc with hc | hc | hc | hc <;> subst hc <;>
      simp only [String.reduceEq, true_or, or_true, false_or, or_false,
        or_self, reduceIte] <;>
      exact readPlain_unknown_packing ext _ packing hp

theorem unsupported_option_amended_witness :
    SizesRepresentable dW ∧
      ("brotli" : String) ∉ (["none", "gzip6", "gzip9", "snappy"] : List String) ∧
      ("crazy" : String) ∉ (["none", "half", "full"] : List String) ∧
      ("none" : String) ∈ (["none", "half", "full"] : List String) ∧
      ("none" : String) ∈ (["none", "gzip6", "gzip9", "snappy"] : List String) ∧
      dW.write extW "none" "crazy" = Except.error PyErr.keyError ∧
      dW.write extW "brotli" "none" = Except.ok none ∧
      DataSet.read extW [] "brotli" "none" =
        Except.error PyErr.unboundLocal ∧
      (∃ e, DataSet.read extW [] "none" "crazy" = Except.error e) :=
  ⟨by decide, by decide, by decide, by decide, by decide,
    (unsupported_option_amended extW).1 dW "none" "crazy" (by decide)
      (by decide),
    (unsupported_option_amended extW).2.1 dW "brotli" "none" (by decide)
      (by decide) (by decide),
    (unsupported_option_amended extW).2.2.1 [] "brotli" "none" (by decide),
    (unsupported_option_amended extW).2.2.2 [] "none" "crazy" (by decide)
      (by decide)⟩
